import Mathlib

/-!
Verification of the freelan session key message codec
(`src/include/fscp/clear_session_message.hpp`) and of the freelan core
callback plumbing (`src/include/freelan/core.hpp`).

Buffers are modelled as `List Nat`, one element per byte.  A read that the
C++ code performs through a raw pointer is modelled as an `Option`-valued
lookup: `none` means the read would touch memory outside the buffer.
-/

namespace fscp

namespace clear_session_message

/-- The key length (`KEY_LENGTH = 32` in `clear_session_message.hpp`). -/
def KEY_LENGTH : Nat := 32

/-- The iv length (`IV_LENGTH = 16` in `clear_session_message.hpp`). -/
def IV_LENGTH : Nat := 16

/-- The length of the body (`BODY_LENGTH = 16` in `clear_session_message.hpp`;
its only uses are in the translation unit that is not part of the headers). -/
def BODY_LENGTH : Nat := 16

/-- Big-endian 16-bit read at `off`: models
`ntohs(buffer_tools::get<uint16_t>(data(), off))`.  Returns `none` when
either byte lies outside the buffer. -/
def get_u16 (buf : List Nat) (off : Nat) : Option Nat :=
  match buf[off]?, buf[off + 1]? with
  | some b0, some b1 => some (b0 * 256 + b1)
  | _, _ => none

/-- Big-endian 32-bit read at `off`: models
`ntohl(buffer_tools::get<session_number_type>(data(), off))`. -/
def get_u32 (buf : List Nat) (off : Nat) : Option Nat :=
  match buf[off]?, buf[off + 1]?, buf[off + 2]?, buf[off + 3]? with
  | some b0, some b1, some b2, some b3 =>
      some (b0 * 2 ^ 24 + b1 * 2 ^ 16 + b2 * 2 ^ 8 + b3)
  | _, _, _, _ => none

/-- Reading `n` consecutive bytes starting at `off`; models dereferencing the
pointer returned by a field accessor over the extent given by the matching
size accessor.  `none` when the span leaves the buffer. -/
def extract (buf : List Nat) (off n : Nat) : Option (List Nat) :=
  if off + n ≤ buf.length then some ((buf.drop off).take n) else none

/-- Models `clear_session_message::session_number()`: big-endian u32 at offset 0. -/
def session_number (buf : List Nat) : Option Nat :=
  get_u32 buf 0

/-- Models `clear_session_message::signature_key_size()`: big-endian u16 at
`sizeof(session_number_type) = 4`. -/
def signature_key_size (buf : List Nat) : Option Nat :=
  get_u16 buf 4

/-- Models `clear_session_message::signature_key()`: points at offset
`4 + 2`; its extent is `signature_key_size()` bytes. -/
def signature_key (buf : List Nat) : Option (List Nat) :=
  (signature_key_size buf).bind fun n1 => extract buf (4 + 2) n1

/-- Models `clear_session_message::encryption_key_size()`: big-endian u16 at
`4 + 2 + signature_key_size()`. -/
def encryption_key_size (buf : List Nat) : Option Nat :=
  (signature_key_size buf).bind fun n1 => get_u16 buf (4 + 2 + n1)

/-- Models `clear_session_message::encryption_key()`: points at offset
`4 + 2 + signature_key_size() + 2`; extent `encryption_key_size()` bytes. -/
def encryption_key (buf : List Nat) : Option (List Nat) :=
  (signature_key_size buf).bind fun n1 =>
    (encryption_key_size buf).bind fun n2 => extract buf (4 + 2 + n1 + 2) n2

/-- Models `clear_session_message::initialization_vector_size()`: big-endian u16 at
`4 + 2 + signature_key_size() + 2 + encryption_key_size()`. -/
def initialization_vector_size (buf : List Nat) : Option Nat :=
  (signature_key_size buf).bind fun n1 =>
    (encryption_key_size buf).bind fun n2 => get_u16 buf (4 + 2 + n1 + 2 + n2)

/-- Models `clear_session_message::initialization_vector()`: points at offset
`4 + 2 + signature_key_size() + 2 + encryption_key_size() + 2`; extent
`initialization_vector_size()` bytes. -/
def initialization_vector (buf : List Nat) : Option (List Nat) :=
  (signature_key_size buf).bind fun n1 =>
    (encryption_key_size buf).bind fun n2 =>
      (initialization_vector_size buf).bind fun n3 =>
        extract buf (4 + 2 + n1 + 2 + n2 + 2) n3

/-- Decoding failure, the spec's `MalformedMessage` (the C++ constructor
throws `std::runtime_error`). -/
inductive DecodeError
  | MalformedMessage
deriving DecidableEq

/-- Encoding failure, the spec's `EncodingOverflow`. -/
inductive EncodeError
  | EncodingOverflow
deriving DecidableEq

/-- Modelled from the spec: the body of the validating constructor
`clear_session_message::clear_session_message(const void*, size_t)` is only
declared in `clear_session_message.hpp` (line 109); its definition lives in a
translation unit that is not part of the sources.  Per spec §4.1 the decoder
"validates that the buffer is at least large enough to contain the session
number and the three length prefixes, that every declared field fits within
the remaining buffer, and that no field's declared length pushes a subsequent
read past the buffer end".  The checks walk the wire layout in order: each
length prefix must be readable in bounds and the final field must end inside
the buffer. -/
def valid (buf : List Nat) : Bool :=
  match get_u16 buf 4 with
  | none => false
  | some n1 =>
    match get_u16 buf (4 + 2 + n1) with
    | none => false
    | some n2 =>
      match get_u16 buf (4 + 2 + n1 + 2 + n2) with
      | none => false
      | some n3 => decide (4 + 2 + n1 + 2 + n2 + 2 + n3 ≤ buf.length)

/-- Modelled from the spec: mapping a `clear_session_message` on a buffer
either succeeds (the view is usable) or fails with `MalformedMessage`. -/
def decode (buf : List Nat) : Except DecodeError Unit :=
  if valid buf then .ok () else .error .MalformedMessage

/-- Big-endian encoding of a 16-bit value, as the writer emits it. -/
def toBE16 (n : Nat) : List Nat :=
  [n / 2 ^ 8 % 256, n % 256]

/-- Big-endian encoding of a 32-bit value, as the writer emits it. -/
def toBE32 (n : Nat) : List Nat :=
  [n / 2 ^ 24 % 256, n / 2 ^ 16 % 256, n / 2 ^ 8 % 256, n % 256]

/-- Modelled from the spec: the byte sequence emitted by
`clear_session_message::write` (declared at `clear_session_message.hpp`
line 100, body not among the sources).  Spec §4.1/§6: a 4-byte big-endian
session number, then, for each of signature key, encryption key and iv in
that fixed order, a 2-byte big-endian length followed by that many raw
bytes. -/
def writeBytes (sn : Nat) (sig enc iv : List Nat) : List Nat :=
  toBE32 sn ++ toBE16 sig.length ++ sig ++ toBE16 enc.length ++ enc ++
    toBE16 iv.length ++ iv

/-- Modelled from the spec: `clear_session_message::write(buf, buf_len, ...)`
fails with `EncodingOverflow` if any individual field length exceeds 65535
bytes or if the total exceeds the output capacity `buf_len`; otherwise it
fills the buffer and returns the bytes written (the C++ function returns
their count).  In the C++ signature the field arguments are
`boost::array<uint8_t, 32>` / `boost::array<uint8_t, 16>`, so there the
lengths are fixed by the types; the model takes arbitrary byte lists. -/
def write (buf_len : Nat) (sn : Nat) (sig enc iv : List Nat) :
    Except EncodeError (List Nat) :=
  if 65535 < sig.length ∨ 65535 < enc.length ∨ 65535 < iv.length then
    .error .EncodingOverflow
  else if buf_len < (writeBytes sn sig enc iv).length then
    .error .EncodingOverflow
  else
    .ok (writeBytes sn sig enc iv)

end clear_session_message

end fscp

namespace freelan

/-- The `freelan::core` class data members (`core.hpp` lines 165-173).  The
member types (`freelan::configuration`, `fscp::server`,
`asiotap::tap_adapter`, the 65536-byte tap buffer, the deadline timer and the
two `boost::function` callbacks) are external to the sources, so they are
type parameters of the model. -/
structure core (Config Server Tap Buffer Timer EstCb LostCb : Type) where
  m_configuration : Config
  m_server : Server
  m_tap_adapter : Tap
  m_tap_adapter_buffer : Buffer
  m_contact_timer : Timer
  m_session_established_callback : EstCb
  m_session_lost_callback : LostCb

namespace core

variable {Config Server Tap Buffer Timer EstCb LostCb : Type}

/-- Models `core::set_session_established_callback(callback)`:
`m_session_established_callback = callback;` (`core.hpp` lines 191-194). -/
def set_session_established_callback
    (c : core Config Server Tap Buffer Timer EstCb LostCb) (callback : EstCb) :
    core Config Server Tap Buffer Timer EstCb LostCb :=
  { c with m_session_established_callback := callback }

/-- Models `core::set_session_lost_callback(callback)`:
`m_session_lost_callback = callback;` (`core.hpp` lines 196-199). -/
def set_session_lost_callback
    (c : core Config Server Tap Buffer Timer EstCb LostCb) (callback : LostCb) :
    core Config Server Tap Buffer Timer EstCb LostCb :=
  { c with m_session_lost_callback := callback }

end core

/-- A session lifecycle edge for a peer endpoint (endpoints are opaque
transport addresses; modelled as `Nat`). -/
inductive lifecycle_event
  | established (ep : Nat)
  | lost (ep : Nat)
deriving DecidableEq

/-- A callback invocation of the session lifecycle notifier. -/
inductive lifecycle_notification
  | established_callback (ep : Nat)
  | lost_callback (ep : Nat)
deriving DecidableEq

/-- Modelled from the spec: the body of `core::on_session_established`
(declared at `core.hpp` line 154, definition not among the sources).  Spec
§4.5: "on `mark_established(endpoint)` invokes the established-callback";
the handler performs exactly one invocation of
`m_session_established_callback` for the edge. -/
def on_session_established (ep : Nat) : List lifecycle_notification :=
  [.established_callback ep]

/-- Modelled from the spec: the body of `core::on_session_lost` (declared at
`core.hpp` line 155, definition not among the sources).  Spec §4.5: "on
`mark_lost(endpoint)` invokes the lost-callback"; the handler performs
exactly one invocation of `m_session_lost_callback` for the edge. -/
def on_session_lost (ep : Nat) : List lifecycle_notification :=
  [.lost_callback ep]

/-- The notifications emitted for one lifecycle edge. -/
def notifications_of (e : lifecycle_event) : List lifecycle_notification :=
  match e with
  | .established ep => on_session_established ep
  | .lost ep => on_session_lost ep

/-- The notifications emitted over a whole trace of lifecycle edges, in
order. -/
def run_lifecycle (trace : List lifecycle_event) : List lifecycle_notification :=
  trace.flatMap notifications_of

end freelan

namespace fscp

namespace clear_session_message

lemma getElem?_some_lt {l : List Nat} {i v : Nat} (h : l[i]? = some v) :
    i < l.length := by
  by_contra hc
  rw [List.getElem?_eq_none (by omega)] at h
  exact Option.noConfusion h

lemma get_u16_eq_some {buf : List Nat} {off v : Nat} :
    get_u16 buf off = some v ↔
      ∃ b0 b1, buf[off]? = some b0 ∧ buf[off + 1]? = some b1 ∧ v = b0 * 256 + b1 := by
  unfold get_u16
  cases h0 : buf[off]? with
  | none => simp
  | some b0 =>
    cases h1 : buf[off + 1]? with
    | none => simp
    | some b1 =>
      simp only [Option.some.injEq]
      constructor
      · rintro rfl; exact ⟨b0, b1, rfl, rfl, rfl⟩
      · rintro ⟨c0, c1, hc0, hc1, rfl⟩
        cases hc0; cases hc1; rfl

lemma get_u16_some_le {buf : List Nat} {off v : Nat} (h : get_u16 buf off = some v) :
    off + 2 ≤ buf.length := by
  rcases get_u16_eq_some.mp h with ⟨b0, b1, h0, h1, rfl⟩
  have := getElem?_some_lt h1
  omega

lemma getElem?_take_some {l : List Nat} {k i v : Nat} (h : (l.take k)[i]? = some v) :
    l[i]? = some v := by
  rw [List.getElem?_take] at h
  split at h
  · exact h
  · exact absurd h (by simp)

lemma get_u16_take_lift {buf : List Nat} {k off v : Nat}
    (h : get_u16 (buf.take k) off = some v) : get_u16 buf off = some v := by
  rcases get_u16_eq_some.mp h with ⟨b0, b1, h0, h1, rfl⟩
  exact get_u16_eq_some.mpr ⟨b0, b1, getElem?_take_some h0, getElem?_take_some h1, rfl⟩

lemma valid_iff {buf : List Nat} :
    valid buf = true ↔
      ∃ n1 n2 n3,
        get_u16 buf 4 = some n1 ∧
        get_u16 buf (4 + 2 + n1) = some n2 ∧
        get_u16 buf (4 + 2 + n1 + 2 + n2) = some n3 ∧
        4 + 2 + n1 + 2 + n2 + 2 + n3 ≤ buf.length := by
  unfold valid
  cases h1 : get_u16 buf 4 with
  | none => simp [h1]
  | some n1 =>
    cases h2 : get_u16 buf (4 + 2 + n1) with
    | none => simp [h1, h2]
    | some n2 =>
      cases h3 : get_u16 buf (4 + 2 + n1 + 2 + n2) with
      | none => simp [h1, h2, h3]
      | some n3 => simp [h1, h2, h3]

end clear_session_message

end fscp

namespace fscp

namespace clear_session_message

lemma length_writeBytes (sn : Nat) (sig enc iv : List Nat) :
    (writeBytes sn sig enc iv).length =
      10 + sig.length + enc.length + iv.length := by
  simp [writeBytes, toBE16, toBE32]
  omega

lemma get_u16_cons₂ (b0 b1 : Nat) (rest : List Nat) :
    get_u16 (b0 :: b1 :: rest) 0 = some (b0 * 256 + b1) := by
  simp [get_u16]

lemma get_u16_toBE16_append {x : Nat} (rest : List Nat) (h : x ≤ 65535) :
    get_u16 (toBE16 x ++ rest) 0 = some x := by
  have he : toBE16 x ++ rest = x / 2 ^ 8 % 256 :: (x % 256 :: rest) := rfl
  rw [he, get_u16_cons₂]
  congr 1
  omega

lemma get_u32_toBE32_append {x : Nat} (rest : List Nat) (h : x < 2 ^ 32) :
    get_u32 (toBE32 x ++ rest) 0 = some x := by
  have he : toBE32 x ++ rest =
      x / 2 ^ 24 % 256 :: (x / 2 ^ 16 % 256 :: (x / 2 ^ 8 % 256 :: (x % 256 :: rest))) := rfl
  rw [he]
  simp only [get_u32, List.getElem?_cons_zero, List.getElem?_cons_succ]
  congr 1
  omega

lemma get_u16_drop (buf : List Nat) (off : Nat) :
    get_u16 buf off = get_u16 (buf.drop off) 0 := by
  unfold get_u16
  rw [List.getElem?_drop, List.getElem?_drop]
  norm_num

lemma drop_writeBytes_sig (sn : Nat) (sig enc iv : List Nat) :
    (writeBytes sn sig enc iv).drop (4 + 2) =
      sig ++ (toBE16 enc.length ++ (enc ++ (toBE16 iv.length ++ iv))) := by
  have he : writeBytes sn sig enc iv =
      (toBE32 sn ++ toBE16 sig.length) ++
        (sig ++ (toBE16 enc.length ++ (enc ++ (toBE16 iv.length ++ iv)))) := by
    simp [writeBytes, List.append_assoc]
  rw [he, List.drop_left' (by simp [toBE16, toBE32])]

lemma drop_writeBytes_enc_size (sn : Nat) (sig enc iv : List Nat) :
    (writeBytes sn sig enc iv).drop (4 + 2 + sig.length) =
      toBE16 enc.length ++ (enc ++ (toBE16 iv.length ++ iv)) := by
  have he : writeBytes sn sig enc iv =
      ((toBE32 sn ++ toBE16 sig.length) ++ sig) ++
        (toBE16 enc.length ++ (enc ++ (toBE16 iv.length ++ iv))) := by
    simp [writeBytes, List.append_assoc]
  rw [he, List.drop_left' (by simp [toBE16, toBE32]; omega)]

lemma drop_writeBytes_enc (sn : Nat) (sig enc iv : List Nat) :
    (writeBytes sn sig enc iv).drop (4 + 2 + sig.length + 2) =
      enc ++ (toBE16 iv.length ++ iv) := by
  have he : writeBytes sn sig enc iv =
      (((toBE32 sn ++ toBE16 sig.length) ++ sig) ++ toBE16 enc.length) ++
        (enc ++ (toBE16 iv.length ++ iv)) := by
    simp [writeBytes, List.append_assoc]
  rw [he, List.drop_left' (by simp [toBE16, toBE32]; omega)]

lemma drop_writeBytes_iv_size (sn : Nat) (sig enc iv : List Nat) :
    (writeBytes sn sig enc iv).drop (4 + 2 + sig.length + 2 + enc.length) =
      toBE16 iv.length ++ iv := by
  have he : writeBytes sn sig enc iv =
      ((((toBE32 sn ++ toBE16 sig.length) ++ sig) ++ toBE16 enc.length) ++ enc) ++
        (toBE16 iv.length ++ iv) := by
    simp [writeBytes, List.append_assoc]
  rw [he, List.drop_left' (by simp [toBE16, toBE32]; omega)]

lemma drop_writeBytes_iv (sn : Nat) (sig enc iv : List Nat) :
    (writeBytes sn sig enc iv).drop (4 + 2 + sig.length + 2 + enc.length + 2) = iv := by
  have he : writeBytes sn sig enc iv =
      (((((toBE32 sn ++ toBE16 sig.length) ++ sig) ++ toBE16 enc.length) ++ enc) ++
        toBE16 iv.length) ++ iv := by
    simp [writeBytes, List.append_assoc]
  rw [he, List.drop_left' (by simp [toBE16, toBE32]; omega)]

lemma session_number_writeBytes {sn : Nat} (sig enc iv : List Nat) (h : sn < 2 ^ 32) :
    session_number (writeBytes sn sig enc iv) = some sn := by
  unfold session_number writeBytes
  rw [List.append_assoc, List.append_assoc, List.append_assoc, List.append_assoc,
    List.append_assoc]
  exact get_u32_toBE32_append _ h

lemma drop_writeBytes_sig_size (sn : Nat) (sig enc iv : List Nat) :
    (writeBytes sn sig enc iv).drop 4 =
      toBE16 sig.length ++
        (sig ++ (toBE16 enc.length ++ (enc ++ (toBE16 iv.length ++ iv)))) := by
  have he : writeBytes sn sig enc iv =
      toBE32 sn ++
        (toBE16 sig.length ++
          (sig ++ (toBE16 enc.length ++ (enc ++ (toBE16 iv.length ++ iv))))) := by
    simp [writeBytes, List.append_assoc]
  rw [he, List.drop_left' (by simp [toBE32])]

lemma get_u16_writeBytes_sig_size {sn : Nat} {sig : List Nat} (enc iv : List Nat)
    (h : sig.length ≤ 65535) :
    get_u16 (writeBytes sn sig enc iv) 4 = some sig.length := by
  rw [get_u16_drop, drop_writeBytes_sig_size]
  exact get_u16_toBE16_append _ h

lemma get_u16_writeBytes_enc_size {sn : Nat} {enc : List Nat} (sig iv : List Nat)
    (h : enc.length ≤ 65535) :
    get_u16 (writeBytes sn sig enc iv) (4 + 2 + sig.length) = some enc.length := by
  rw [get_u16_drop, drop_writeBytes_enc_size]
  exact get_u16_toBE16_append _ h

lemma get_u16_writeBytes_iv_size {sn : Nat} {iv : List Nat} (sig enc : List Nat)
    (h : iv.length ≤ 65535) :
    get_u16 (writeBytes sn sig enc iv) (4 + 2 + sig.length + 2 + enc.length) =
      some iv.length := by
  rw [get_u16_drop, drop_writeBytes_iv_size]
  exact get_u16_toBE16_append _ h

lemma valid_writeBytes {sn : Nat} {sig enc iv : List Nat}
    (hs : sig.length ≤ 65535) (he : enc.length ≤ 65535) (hi : iv.length ≤ 65535) :
    valid (writeBytes sn sig enc iv) = true := by
  refine valid_iff.mpr ⟨sig.length, enc.length, iv.length, ?_, ?_, ?_, ?_⟩
  · exact get_u16_writeBytes_sig_size enc iv hs
  · exact get_u16_writeBytes_enc_size sig iv he
  · exact get_u16_writeBytes_iv_size sig enc hi
  · rw [length_writeBytes]; omega

lemma signature_key_size_writeBytes {sn : Nat} {sig : List Nat} (enc iv : List Nat)
    (h : sig.length ≤ 65535) :
    signature_key_size (writeBytes sn sig enc iv) = some sig.length := by
  unfold signature_key_size
  exact get_u16_writeBytes_sig_size enc iv h

lemma encryption_key_size_writeBytes {sn : Nat} {sig enc : List Nat} (iv : List Nat)
    (hs : sig.length ≤ 65535) (he : enc.length ≤ 65535) :
    encryption_key_size (writeBytes sn sig enc iv) = some enc.length := by
  unfold encryption_key_size
  rw [signature_key_size_writeBytes enc iv hs, Option.some_bind]
  exact get_u16_writeBytes_enc_size sig iv he

lemma initialization_vector_size_writeBytes {sn : Nat} {sig enc iv : List Nat}
    (hs : sig.length ≤ 65535) (he : enc.length ≤ 65535) (hi : iv.length ≤ 65535) :
    initialization_vector_size (writeBytes sn sig enc iv) = some iv.length := by
  unfold initialization_vector_size
  rw [signature_key_size_writeBytes enc iv hs, Option.some_bind,
    encryption_key_size_writeBytes iv hs he, Option.some_bind]
  exact get_u16_writeBytes_iv_size sig enc hi

lemma signature_key_writeBytes {sn : Nat} {sig : List Nat} (enc iv : List Nat)
    (h : sig.length ≤ 65535) :
    signature_key (writeBytes sn sig enc iv) = some sig := by
  unfold signature_key
  rw [signature_key_size_writeBytes enc iv h, Option.some_bind]
  unfold extract
  rw [if_pos (by rw [length_writeBytes]; omega)]
  rw [drop_writeBytes_sig]
  exact congrArg some (List.take_left' rfl)

lemma encryption_key_writeBytes {sn : Nat} {sig enc : List Nat} (iv : List Nat)
    (hs : sig.length ≤ 65535) (he : enc.length ≤ 65535) :
    encryption_key (writeBytes sn sig enc iv) = some enc := by
  unfold encryption_key
  rw [signature_key_size_writeBytes enc iv hs, Option.some_bind,
    encryption_key_size_writeBytes iv hs he, Option.some_bind]
  unfold extract
  rw [if_pos (by rw [length_writeBytes]; omega)]
  rw [drop_writeBytes_enc]
  exact congrArg some (List.take_left' rfl)

lemma initialization_vector_writeBytes {sn : Nat} {sig enc iv : List Nat}
    (hs : sig.length ≤ 65535) (he : enc.length ≤ 65535) (hi : iv.length ≤ 65535) :
    initialization_vector (writeBytes sn sig enc iv) = some iv := by
  unfold initialization_vector
  rw [signature_key_size_writeBytes enc iv hs, Option.some_bind,
    encryption_key_size_writeBytes iv hs he, Option.some_bind,
    initialization_vector_size_writeBytes hs he hi, Option.some_bind]
  unfold extract
  rw [if_pos (by rw [length_writeBytes]; omega)]
  rw [drop_writeBytes_iv]
  exact congrArg some (List.take_length iv)

end clear_session_message

end fscp

namespace fscp

namespace clear_session_message

lemma get_u32_isSome_of_le {buf : List Nat} {off : Nat} (h : off + 4 ≤ buf.length) :
    (get_u32 buf off).isSome = true := by
  cases c0 : buf[off]? with
  | none =>
    rw [List.getElem?_eq_getElem (show off < buf.length by omega)] at c0
    exact Option.noConfusion c0
  | some b0 =>
    cases c1 : buf[off + 1]? with
    | none =>
      rw [List.getElem?_eq_getElem (show off + 1 < buf.length by omega)] at c1
      exact Option.noConfusion c1
    | some b1 =>
      cases c2 : buf[off + 2]? with
      | none =>
        rw [List.getElem?_eq_getElem (show off + 2 < buf.length by omega)] at c2
        exact Option.noConfusion c2
      | some b2 =>
        cases c3 : buf[off + 3]? with
        | none =>
          rw [List.getElem?_eq_getElem (show off + 3 < buf.length by omega)] at c3
          exact Option.noConfusion c3
        | some b3 => simp [get_u32, c0, c1, c2, c3]

/-- C1: for every buffer accepted by the `clear_session_message` constructor
(`valid buf = true`), every field accessor — `signature_key_size`,
`encryption_key_size`, `initialization_vector_size`, `session_number`, and
the field pointers `signature_key` / `encryption_key` /
`initialization_vector` read over their full extents — performs only reads
inside the buffer (each returns `some`), and the last field ends within the
buffer. -/
theorem decode_ok_accessors_in_bounds (buf : List Nat) (h : valid buf = true) :
    ∃ n1 n2 n3,
      signature_key_size buf = some n1 ∧
      encryption_key_size buf = some n2 ∧
      initialization_vector_size buf = some n3 ∧
      (session_number buf).isSome = true ∧
      signature_key buf = some ((buf.drop (4 + 2)).take n1) ∧
      encryption_key buf = some ((buf.drop (4 + 2 + n1 + 2)).take n2) ∧
      initialization_vector buf = some ((buf.drop (4 + 2 + n1 + 2 + n2 + 2)).take n3) ∧
      4 + 2 + n1 + 2 + n2 + 2 + n3 ≤ buf.length := by
  rcases valid_iff.mp h with ⟨n1, n2, n3, h1, h2, h3, hl⟩
  have b2 := get_u16_some_le h2
  have b3 := get_u16_some_le h3
  refine ⟨n1, n2, n3, h1, ?_, ?_, ?_, ?_, ?_, ?_, hl⟩
  · simp only [encryption_key_size, signature_key_size, h1, Option.some_bind]
    exact h2
  · simp only [initialization_vector_size, encryption_key_size, signature_key_size,
      h1, Option.some_bind, h2]
    exact h3
  · have b1 := get_u16_some_le h1
    exact get_u32_isSome_of_le (by omega)
  · simp only [signature_key, signature_key_size, h1, Option.some_bind, extract]
    rw [if_pos (by omega)]
  · simp only [encryption_key, encryption_key_size, signature_key_size, h1,
      Option.some_bind, h2, extract]
    rw [if_pos (by omega)]
  · simp only [initialization_vector, initialization_vector_size,
      encryption_key_size, signature_key_size, h1, Option.some_bind, h2, h3, extract]
    rw [if_pos (by omega)]

/-- Witness for C1 on a concrete 10-byte message with three empty fields. -/
theorem decode_ok_accessors_in_bounds_witness :
    ∃ n1 n2 n3,
      signature_key_size [0, 0, 0, 0, 0, 0, 0, 0, 0, 0] = some n1 ∧
      encryption_key_size [0, 0, 0, 0, 0, 0, 0, 0, 0, 0] = some n2 ∧
      initialization_vector_size [0, 0, 0, 0, 0, 0, 0, 0, 0, 0] = some n3 ∧
      (session_number [0, 0, 0, 0, 0, 0, 0, 0, 0, 0]).isSome = true ∧
      signature_key [0, 0, 0, 0, 0, 0, 0, 0, 0, 0] =
        some (([0, 0, 0, 0, 0, 0, 0, 0, 0, 0].drop (4 + 2)).take n1) ∧
      encryption_key [0, 0, 0, 0, 0, 0, 0, 0, 0, 0] =
        some (([0, 0, 0, 0, 0, 0, 0, 0, 0, 0].drop (4 + 2 + n1 + 2)).take n2) ∧
      initialization_vector [0, 0, 0, 0, 0, 0, 0, 0, 0, 0] =
        some (([0, 0, 0, 0, 0, 0, 0, 0, 0, 0].drop (4 + 2 + n1 + 2 + n2 + 2)).take n3) ∧
      4 + 2 + n1 + 2 + n2 + 2 + n3 ≤ [0, 0, 0, 0, 0, 0, 0, 0, 0, 0].length :=
  decode_ok_accessors_in_bounds [0, 0, 0, 0, 0, 0, 0, 0, 0, 0] (by decide)

end clear_session_message

end fscp

namespace fscp

namespace clear_session_message

/-- C2: cutting a valid encoded session key message at any byte offset
strictly before its end makes decoding fail with `MalformedMessage`; every
read the decoder performs is an `Option`-valued lookup, so it never reads
past the truncated buffer. -/
theorem truncated_encoding_malformed (sn : Nat) (sig enc iv : List Nat) (k : Nat)
    (hs : sig.length ≤ 65535) (he : enc.length ≤ 65535) (hi : iv.length ≤ 65535)
    (hk : k < (writeBytes sn sig enc iv).length) :
    decode ((writeBytes sn sig enc iv).take k) =
      Except.error DecodeError.MalformedMessage := by
  cases hval : valid ((writeBytes sn sig enc iv).take k) with
  | false => simp [decode, hval]
  | true =>
    exfalso
    rcases valid_iff.mp hval with ⟨n1, n2, n3, h1, h2, h3, hl⟩
    have g1 : get_u16 (writeBytes sn sig enc iv) 4 = some n1 := get_u16_take_lift h1
    have gs := @get_u16_writeBytes_sig_size sn sig enc iv hs
    have e1 : n1 = sig.length := by
      rw [g1] at gs; exact (Option.some.injEq _ _).mp gs
    subst e1
    have g2 : get_u16 (writeBytes sn sig enc iv) (4 + 2 + sig.length) = some n2 :=
      get_u16_take_lift h2
    have ge := @get_u16_writeBytes_enc_size sn enc sig iv he
    have e2 : n2 = enc.length := by
      rw [g2] at ge; exact (Option.some.injEq _ _).mp ge
    subst e2
    have g3 : get_u16 (writeBytes sn sig enc iv)
        (4 + 2 + sig.length + 2 + enc.length) = some n3 := get_u16_take_lift h3
    have gi := @get_u16_writeBytes_iv_size sn iv sig enc hi
    have e3 : n3 = iv.length := by
      rw [g3] at gi; exact (Option.some.injEq _ _).mp gi
    subst e3
    have hlen : ((writeBytes sn sig enc iv).take k).length ≤ k := by
      simp [List.length_take]
    have htot := length_writeBytes sn sig enc iv
    omega

/-- Witness for C2: a 13-byte encoded message truncated to its first 5
bytes is rejected. -/
theorem truncated_encoding_malformed_witness :
    decode ((writeBytes 1 [1] [2] [3]).take 5) =
      Except.error DecodeError.MalformedMessage :=
  truncated_encoding_malformed 1 [1] [2] [3] 5 (by decide) (by decide) (by decide)
    (by decide)

/-- C3: a buffer in which some declared field length (signature key,
encryption key or iv length prefix) would extend that field past the end of
the buffer is rejected with `MalformedMessage`, whatever the remaining bytes
contain.  The decoder is a pure function of the buffer, so nothing is
mutated. -/
theorem oversized_declared_length_rejected (buf : List Nat)
    (h :
      (∃ n1, get_u16 buf 4 = some n1 ∧ buf.length < 4 + 2 + n1) ∨
      (∃ n1 n2, get_u16 buf 4 = some n1 ∧ get_u16 buf (4 + 2 + n1) = some n2 ∧
        buf.length < 4 + 2 + n1 + 2 + n2) ∨
      (∃ n1 n2 n3, get_u16 buf 4 = some n1 ∧ get_u16 buf (4 + 2 + n1) = some n2 ∧
        get_u16 buf (4 + 2 + n1 + 2 + n2) = some n3 ∧
        buf.length < 4 + 2 + n1 + 2 + n2 + 2 + n3)) :
    decode buf = Except.error DecodeError.MalformedMessage := by
  cases hval : valid buf with
  | false => simp [decode, hval]
  | true =>
    exfalso
    rcases valid_iff.mp hval with ⟨m1, m2, m3, g1, g2, g3, gl⟩
    have b2 := get_u16_some_le g2
    have b3 := get_u16_some_le g3
    rcases h with ⟨n1, h1, hb⟩ | ⟨n1, n2, h1, h2, hb⟩ | ⟨n1, n2, n3, h1, h2, h3, hb⟩
    · have e1 : m1 = n1 := by rw [g1] at h1; exact (Option.some.injEq _ _).mp h1
      omega
    · have e1 : m1 = n1 := by rw [g1] at h1; exact (Option.some.injEq _ _).mp h1
      subst e1
      have e2 : m2 = n2 := by rw [g2] at h2; exact (Option.some.injEq _ _).mp h2
      omega
    · have e1 : m1 = n1 := by rw [g1] at h1; exact (Option.some.injEq _ _).mp h1
      subst e1
      have e2 : m2 = n2 := by rw [g2] at h2; exact (Option.some.injEq _ _).mp h2
      subst e2
      have e3 : m3 = n3 := by rw [g3] at h3; exact (Option.some.injEq _ _).mp h3
      omega

/-- Witness for C3, the spec's Scenario C: a buffer whose encryption key
length prefix declares 60000 bytes while only 10 bytes remain is rejected. -/
theorem oversized_declared_length_rejected_witness :
    decode [0, 0, 0, 1, 0, 0, 234, 96, 1, 2, 3, 4, 5, 6, 7, 8, 9, 10] =
      Except.error DecodeError.MalformedMessage :=
  oversized_declared_length_rejected _
    (Or.inr (Or.inl ⟨0, 60000, by decide, by decide, by decide⟩))

end clear_session_message

end fscp

namespace fscp

namespace clear_session_message

lemma write_eq_ok {buf_len sn : Nat} {sig enc iv out : List Nat}
    (hw : write buf_len sn sig enc iv = Except.ok out) :
    out = writeBytes sn sig enc iv ∧ sig.length ≤ 65535 ∧ enc.length ≤ 65535 ∧
      iv.length ≤ 65535 ∧ (writeBytes sn sig enc iv).length ≤ buf_len := by
  unfold write at hw
  split at hw
  next h65 => exact absurd hw (by simp)
  next h65 =>
    split at hw
    next hcap => exact absurd hw (by simp)
    next hcap =>
      push_neg at h65 hcap
      injection hw with hout
      exact ⟨hout.symm, h65.1, h65.2.1, h65.2.2, hcap⟩

/-- C4: decoding the buffer produced by encoding any session number and
fields accepted by the encoder succeeds, and every accessor reproduces
exactly the encoded session number, field bytes and lengths. -/
theorem write_then_decode_roundtrip (buf_len sn : Nat) (sig enc iv out : List Nat)
    (hsn : sn < 2 ^ 32) (hw : write buf_len sn sig enc iv = Except.ok out) :
    decode out = Except.ok () ∧
    session_number out = some sn ∧
    signature_key_size out = some sig.length ∧
    signature_key out = some sig ∧
    encryption_key_size out = some enc.length ∧
    encryption_key out = some enc ∧
    initialization_vector_size out = some iv.length ∧
    initialization_vector out = some iv := by
  obtain ⟨rfl, hs, he, hi, _⟩ := write_eq_ok hw
  refine ⟨?_, ?_, ?_, ?_, ?_, ?_, ?_, ?_⟩
  · simp [decode, valid_writeBytes hs he hi]
  · exact session_number_writeBytes sig enc iv hsn
  · exact signature_key_size_writeBytes enc iv hs
  · exact signature_key_writeBytes enc iv hs
  · exact encryption_key_size_writeBytes iv hs he
  · exact encryption_key_writeBytes iv hs he
  · exact initialization_vector_size_writeBytes hs he hi
  · exact initialization_vector_writeBytes hs he hi

/-- Witness for C4 on a concrete encoding with 32-byte keys and a 16-byte
iv. -/
theorem write_then_decode_roundtrip_witness :
    decode (writeBytes 3 (List.replicate 32 7) (List.replicate 32 8)
        (List.replicate 16 9)) = Except.ok () ∧
    session_number (writeBytes 3 (List.replicate 32 7) (List.replicate 32 8)
        (List.replicate 16 9)) = some 3 ∧
    signature_key_size (writeBytes 3 (List.replicate 32 7) (List.replicate 32 8)
        (List.replicate 16 9)) = some (List.replicate 32 7).length ∧
    signature_key (writeBytes 3 (List.replicate 32 7) (List.replicate 32 8)
        (List.replicate 16 9)) = some (List.replicate 32 7) ∧
    encryption_key_size (writeBytes 3 (List.replicate 32 7) (List.replicate 32 8)
        (List.replicate 16 9)) = some (List.replicate 32 8).length ∧
    encryption_key (writeBytes 3 (List.replicate 32 7) (List.replicate 32 8)
        (List.replicate 16 9)) = some (List.replicate 32 8) ∧
    initialization_vector_size (writeBytes 3 (List.replicate 32 7)
        (List.replicate 32 8) (List.replicate 16 9)) =
      some (List.replicate 16 9).length ∧
    initialization_vector (writeBytes 3 (List.replicate 32 7)
        (List.replicate 32 8) (List.replicate 16 9)) =
      some (List.replicate 16 9) :=
  write_then_decode_roundtrip 90 3 (List.replicate 32 7) (List.replicate 32 8)
    (List.replicate 16 9) _ (by decide) rfl

/-- C6: every successful `write` emits the canonical wire form: the 4-byte
big-endian session number, then, for signature key, encryption key and iv in
that order, a 2-byte big-endian length followed by exactly the raw field
bytes. -/
theorem write_canonical_wire_form (buf_len sn : Nat) (sig enc iv out : List Nat)
    (hw : write buf_len sn sig enc iv = Except.ok out) :
    out =
      [sn / 2 ^ 24 % 256, sn / 2 ^ 16 % 256, sn / 2 ^ 8 % 256, sn % 256] ++
      ([sig.length / 2 ^ 8 % 256, sig.length % 256] ++ sig) ++
      ([enc.length / 2 ^ 8 % 256, enc.length % 256] ++ enc) ++
      ([iv.length / 2 ^ 8 % 256, iv.length % 256] ++ iv) := by
  obtain ⟨rfl, _, _, _, _⟩ := write_eq_ok hw
  simp [writeBytes, toBE16, toBE32, List.append_assoc]

/-- Witness for C6 on a concrete encoding with 1-byte fields. -/
theorem write_canonical_wire_form_witness :
    writeBytes 1 [5] [6] [7] =
      [0, 0, 0, 1] ++ ([0, 1] ++ [5]) ++ ([0, 1] ++ [6]) ++ ([0, 1] ++ [7]) :=
  write_canonical_wire_form 20 1 [5] [6] [7] _ rfl

/-- C7: `write` fails with `EncodingOverflow` exactly when the total encoded
size `10 + |sig| + |enc| + |iv|` exceeds the output capacity `buf_len` or
some individual field length exceeds 65535 bytes; otherwise it succeeds and
the bytes written (whose count the C++ function returns) are the total
encoded size, within capacity. -/
theorem write_overflow_iff (buf_len sn : Nat) (sig enc iv : List Nat) :
    (write buf_len sn sig enc iv = Except.error EncodeError.EncodingOverflow ↔
      buf_len < 10 + sig.length + enc.length + iv.length ∨
      65535 < sig.length ∨ 65535 < enc.length ∨ 65535 < iv.length) ∧
    (∀ out, write buf_len sn sig enc iv = Except.ok out →
      out.length = 10 + sig.length + enc.length + iv.length ∧
      out.length ≤ buf_len) := by
  constructor
  · unfold write
    split
    next h65 => exact iff_of_true rfl (Or.inr h65)
    next h65 =>
      split
      next hcap =>
        rw [length_writeBytes] at hcap
        exact iff_of_true rfl (Or.inl hcap)
      next hcap =>
        push_neg at h65 hcap
        rw [length_writeBytes] at hcap
        constructor
        · intro hcontra
          exact absurd hcontra (by simp)
        · intro hor
          exfalso
          rcases hor with h | h | h | h
          · omega
          · exact absurd h (by omega)
          · exact absurd h (by omega)
          · exact absurd h (by omega)
  · intro out hw
    obtain ⟨rfl, _, _, _, hcap⟩ := write_eq_ok hw
    rw [length_writeBytes] at hcap
    exact ⟨length_writeBytes sn sig enc iv, by rw [length_writeBytes]; omega⟩

/-- Witness for C7: a 10-byte message does not fit a 9-byte buffer. -/
theorem write_overflow_iff_witness :
    write 9 0 [] [] [] = Except.error EncodeError.EncodingOverflow :=
  (write_overflow_iff 9 0 [] [] []).1.mpr (Or.inl (by decide))

/-- C9: for fields with the lengths fixed by the C++ argument types
(`key_type` is 32 bytes, `iv_type` is 16 bytes), every message `write`
produces has exactly those declared field lengths and a fixed total size of
90 bytes. -/
theorem write_fixed_field_lengths (buf_len sn : Nat) (sig enc iv out : List Nat)
    (hsig : sig.length = KEY_LENGTH) (henc : enc.length = KEY_LENGTH)
    (hiv : iv.length = IV_LENGTH)
    (hw : write buf_len sn sig enc iv = Except.ok out) :
    out.length = 90 ∧
    signature_key_size out = some 32 ∧
    encryption_key_size out = some 32 ∧
    initialization_vector_size out = some 16 := by
  obtain ⟨rfl, hs, he, hi, _⟩ := write_eq_ok hw
  unfold KEY_LENGTH at hsig henc
  unfold IV_LENGTH at hiv
  refine ⟨?_, ?_, ?_, ?_⟩
  · rw [length_writeBytes]; omega
  · rw [signature_key_size_writeBytes enc iv hs, hsig]
  · rw [encryption_key_size_writeBytes iv hs he, henc]
  · rw [initialization_vector_size_writeBytes hs he hi, hiv]

/-- Witness for C9 on a concrete 32/32/16-byte encoding. -/
theorem write_fixed_field_lengths_witness :
    (writeBytes 3 (List.replicate 32 7) (List.replicate 32 8)
        (List.replicate 16 9)).length = 90 ∧
    signature_key_size (writeBytes 3 (List.replicate 32 7) (List.replicate 32 8)
        (List.replicate 16 9)) = some 32 ∧
    encryption_key_size (writeBytes 3 (List.replicate 32 7) (List.replicate 32 8)
        (List.replicate 16 9)) = some 32 ∧
    initialization_vector_size (writeBytes 3 (List.replicate 32 7)
        (List.replicate 32 8) (List.replicate 16 9)) = some 16 :=
  write_fixed_field_lengths 90 3 (List.replicate 32 7) (List.replicate 32 8)
    (List.replicate 16 9) _ (by decide) (by decide) (by decide) rfl

end clear_session_message

end fscp

namespace fscp

namespace clear_session_message

lemma session_number_eq_getD {buf : List Nat} (h : 4 ≤ buf.length) :
    session_number buf =
      some (buf.getD 0 0 * 2 ^ 24 + buf.getD 1 0 * 2 ^ 16 +
        buf.getD 2 0 * 2 ^ 8 + buf.getD 3 0) := by
  cases buf with
  | nil => simp at h
  | cons b0 t0 =>
    cases t0 with
    | nil => simp at h
    | cons b1 t1 =>
      cases t1 with
      | nil => simp at h
      | cons b2 t2 =>
        cases t2 with
        | nil => simp at h
        | cons b3 rest => simp [session_number, get_u32]

/-- C5: on every successfully validated buffer the accessors read the fields
at exactly the wire offsets of the framing: the session number is the 4-byte
big-endian integer at offset 0, the signature key starts at offset 6 with
its 2-byte big-endian length at offset 4, the encryption key starts at
offset `8 + n1` with its length at offset `6 + n1`, and the iv starts at
offset `10 + n1 + n2` with its length at offset `8 + n1 + n2`, each offset
derived from the preceding length fields (the accessors are functions of the
buffer alone, so every call re-derives the offsets rather than using a
cache). -/
theorem accessors_read_wire_offsets (buf : List Nat) (h : valid buf = true) :
    ∃ n1 n2 n3,
      signature_key_size buf = some n1 ∧ get_u16 buf 4 = some n1 ∧
      encryption_key_size buf = some n2 ∧ get_u16 buf (6 + n1) = some n2 ∧
      initialization_vector_size buf = some n3 ∧
      get_u16 buf (8 + n1 + n2) = some n3 ∧
      signature_key buf = some ((buf.drop 6).take n1) ∧
      encryption_key buf = some ((buf.drop (8 + n1)).take n2) ∧
      initialization_vector buf = some ((buf.drop (10 + n1 + n2)).take n3) ∧
      session_number buf =
        some (buf.getD 0 0 * 2 ^ 24 + buf.getD 1 0 * 2 ^ 16 +
          buf.getD 2 0 * 2 ^ 8 + buf.getD 3 0) := by
  rcases valid_iff.mp h with ⟨n1, n2, n3, h1, h2, h3, hl⟩
  have b1 := get_u16_some_le h1
  have b2 := get_u16_some_le h2
  have b3 := get_u16_some_le h3
  refine ⟨n1, n2, n3, h1, h1, ?_, ?_, ?_, ?_, ?_, ?_, ?_, ?_⟩
  · simp only [encryption_key_size, signature_key_size, h1, Option.some_bind]
    exact h2
  · rw [show 6 + n1 = 4 + 2 + n1 by omega]
    exact h2
  · simp only [initialization_vector_size, encryption_key_size, signature_key_size,
      h1, Option.some_bind, h2]
    exact h3
  · rw [show 8 + n1 + n2 = 4 + 2 + n1 + 2 + n2 by omega]
    exact h3
  · simp only [signature_key, signature_key_size, h1, Option.some_bind, extract]
    rw [if_pos (by omega)]
  · simp only [encryption_key, encryption_key_size, signature_key_size, h1,
      Option.some_bind, h2, extract]
    rw [if_pos (by omega)]
    rw [show 4 + 2 + n1 + 2 = 8 + n1 by omega]
  · simp only [initialization_vector, initialization_vector_size,
      encryption_key_size, signature_key_size, h1, Option.some_bind, h2, h3, extract]
    rw [if_pos (by omega)]
    rw [show 4 + 2 + n1 + 2 + n2 + 2 = 10 + n1 + n2 by omega]
  · exact session_number_eq_getD (by omega)

/-- Witness for C5 on a concrete 10-byte message with three empty fields. -/
theorem accessors_read_wire_offsets_witness :
    ∃ n1 n2 n3,
      signature_key_size [9, 9, 9, 9, 0, 0, 0, 0, 0, 0] = some n1 ∧
      get_u16 [9, 9, 9, 9, 0, 0, 0, 0, 0, 0] 4 = some n1 ∧
      encryption_key_size [9, 9, 9, 9, 0, 0, 0, 0, 0, 0] = some n2 ∧
      get_u16 [9, 9, 9, 9, 0, 0, 0, 0, 0, 0] (6 + n1) = some n2 ∧
      initialization_vector_size [9, 9, 9, 9, 0, 0, 0, 0, 0, 0] = some n3 ∧
      get_u16 [9, 9, 9, 9, 0, 0, 0, 0, 0, 0] (8 + n1 + n2) = some n3 ∧
      signature_key [9, 9, 9, 9, 0, 0, 0, 0, 0, 0] =
        some (([9, 9, 9, 9, 0, 0, 0, 0, 0, 0].drop 6).take n1) ∧
      encryption_key [9, 9, 9, 9, 0, 0, 0, 0, 0, 0] =
        some (([9, 9, 9, 9, 0, 0, 0, 0, 0, 0].drop (8 + n1)).take n2) ∧
      initialization_vector [9, 9, 9, 9, 0, 0, 0, 0, 0, 0] =
        some (([9, 9, 9, 9, 0, 0, 0, 0, 0, 0].drop (10 + n1 + n2)).take n3) ∧
      session_number [9, 9, 9, 9, 0, 0, 0, 0, 0, 0] =
        some ([9, 9, 9, 9, 0, 0, 0, 0, 0, 0].getD 0 0 * 2 ^ 24 +
          [9, 9, 9, 9, 0, 0, 0, 0, 0, 0].getD 1 0 * 2 ^ 16 +
          [9, 9, 9, 9, 0, 0, 0, 0, 0, 0].getD 2 0 * 2 ^ 8 +
          [9, 9, 9, 9, 0, 0, 0, 0, 0, 0].getD 3 0) :=
  accessors_read_wire_offsets [9, 9, 9, 9, 0, 0, 0, 0, 0, 0] (by decide)

end clear_session_message

end fscp

namespace freelan

/-- C8: over any trace of session lifecycle edges, each established edge for
a peer endpoint triggers the session-established callback exactly once and
each lost edge triggers the session-lost callback exactly once: the number
of callback invocations equals the number of corresponding edges, so no
logical transition is notified twice. -/
theorem lifecycle_notification_once_per_edge (trace : List lifecycle_event)
    (ep : Nat) :
    (run_lifecycle trace).count (lifecycle_notification.established_callback ep) =
        trace.count (lifecycle_event.established ep) ∧
      (run_lifecycle trace).count (lifecycle_notification.lost_callback ep) =
        trace.count (lifecycle_event.lost ep) := by
  induction trace with
  | nil => exact ⟨rfl, rfl⟩
  | cons e rest ih =>
    rcases ih with ⟨ih1, ih2⟩
    have hrun : run_lifecycle (e :: rest) =
        notifications_of e ++ run_lifecycle rest := by
      simp [run_lifecycle]
    cases e with
    | established ep' =>
      rw [hrun]
      constructor
      · rw [List.count_append, ih1]
        by_cases hep : ep' = ep
        · subst hep
          simp [notifications_of, on_session_established, List.count_cons]
          omega
        · simp [notifications_of, on_session_established, List.count_cons, hep]
      · rw [List.count_append, ih2]
        simp [notifications_of, on_session_established, List.count_cons]
    | lost ep' =>
      rw [hrun]
      constructor
      · rw [List.count_append, ih1]
        simp [notifications_of, on_session_lost, List.count_cons]
      · rw [List.count_append, ih2]
        by_cases hep : ep' = ep
        · subst hep
          simp [notifications_of, on_session_lost, List.count_cons]
          omega
        · simp [notifications_of, on_session_lost, List.count_cons, hep]

/-- C10: `core::set_session_established_callback` replaces only the stored
session-established callback and `core::set_session_lost_callback` replaces
only the stored session-lost callback; each leaves the other callback, the
configuration, the server, the tap adapter, the tap adapter buffer and the
contact timer unchanged. -/
theorem set_callbacks_frame (Config Server Tap Buffer Timer EstCb LostCb : Type)
    (c : core Config Server Tap Buffer Timer EstCb LostCb)
    (est : EstCb) (lost : LostCb) :
    (core.set_session_established_callback c est).m_session_established_callback
        = est ∧
    (core.set_session_established_callback c est).m_session_lost_callback =
        c.m_session_lost_callback ∧
    (core.set_session_established_callback c est).m_configuration =
        c.m_configuration ∧
    (core.set_session_established_callback c est).m_server = c.m_server ∧
    (core.set_session_established_callback c est).m_tap_adapter =
        c.m_tap_adapter ∧
    (core.set_session_established_callback c est).m_tap_adapter_buffer =
        c.m_tap_adapter_buffer ∧
    (core.set_session_established_callback c est).m_contact_timer =
        c.m_contact_timer ∧
    (core.set_session_lost_callback c lost).m_session_lost_callback = lost ∧
    (core.set_session_lost_callback c lost).m_session_established_callback =
        c.m_session_established_callback ∧
    (core.set_session_lost_callback c lost).m_configuration =
        c.m_configuration ∧
    (core.set_session_lost_callback c lost).m_server = c.m_server ∧
    (core.set_session_lost_callback c lost).m_tap_adapter = c.m_tap_adapter ∧
    (core.set_session_lost_callback c lost).m_tap_adapter_buffer =
        c.m_tap_adapter_buffer ∧
    (core.set_session_lost_callback c lost).m_contact_timer =
        c.m_contact_timer :=
  ⟨rfl, rfl, rfl, rfl, rfl, rfl, rfl, rfl, rfl, rfl, rfl, rfl, rfl, rfl⟩

end freelan
